import Mathlib

/-
Verification of the service-discovery / circuit-breaker / aggregation core of
the laboratorioDAMD microservices repository.

The gateway keeps one breaker record per upstream service in a mutable table
`breakers`; the service registry keeps per-service instance lists with health
bookkeeping.  Both are embedded here as pure functions over explicit state.
Timestamps are naturals standing for `Date.now()` milliseconds; JS computes
`now - openedAt` in signed arithmetic, but every use compares the difference
against a positive constant, so truncated `Nat` subtraction agrees with the
source on all inputs.
-/

namespace Breaker

/-- Breaker record per service, `\x7b failures, openedAt \x7d` in the gateway
source; `openedAt` is `null` (here `none`) while the breaker is closed. -/
structure BreakerState where
  failures : Nat
  openedAt : Option Nat
deriving Repr, DecidableEq

/-- The gateway module-level `breakers` table, keyed by service name; a name
with no entry maps to `none` (JS `undefined`). -/
abbrev Breakers := String → Option BreakerState

/-- Constant MAX_FAILS = 3 from the gateway source. -/
def MAX_FAILS : Nat := 3

/-- Constant COOLDOWN_MS = 30000 from the gateway source. -/
def COOLDOWN_MS : Nat := 30000

/-- JS coercion `x || null` on an optional number: `undefined`, `null` and
the falsy number `0` all yield `null`. -/
def jsOrNull (o : Option Nat) : Option Nat :=
  match o with
  | some t => if t = 0 then none else some t
  | none => none

/-- Embedding of `canPass(name)` from the gateway source (lines 45-53).
Returns the boolean result together with the possibly-reset table, since the
cooldown branch assigns `breakers[name] = \x7b failures: 0, openedAt: null \x7d`
as a side effect.  `b.openedAt || 0` is `Option.getD 0` (`0` is falsy and the
default is `0` as well, so the coercions coincide). -/
def canPass (name : String) (now : Nat) (bs : Breakers) : Bool × Breakers :=
  match bs name with
  | none => (true, bs)
  | some b =>
    if b.failures < MAX_FAILS then (true, bs)
    else
      let elapsed := now - b.openedAt.getD 0
      if COOLDOWN_MS < elapsed then
        (true, fun n => if n = name then some ⟨0, none⟩ else bs n)
      else
        (false, bs)

/-- Embedding of `reportSuccess(name)`: unconditional reset of the entry. -/
def reportSuccess (name : String) (bs : Breakers) : Breakers :=
  fun n => if n = name then some ⟨0, none⟩ else bs n

/-- Embedding of `reportFailure(name)` (gateway source lines 55-59):
`prev = breakers[name]?.failures || 0`, `failures = prev + 1`, and the new
record is `\x7b failures, openedAt: failures >= MAX_FAILS ? Date.now()
: breakers[name]?.openedAt || null \x7d`. -/
def reportFailure (name : String) (now : Nat) (bs : Breakers) : Breakers :=
  let prev := ((bs name).map BreakerState.failures).getD 0
  let failures := prev + 1
  let openedAt : Option Nat :=
    if MAX_FAILS ≤ failures then some now
    else jsOrNull ((bs name).bind BreakerState.openedAt)
  fun n => if n = name then some ⟨failures, openedAt⟩ else bs n

/-- Three consecutive `reportFailure` calls for the same service at times
`t1`, `t2`, `t3`. -/
def failThree (name : String) (t1 t2 t3 : Nat) (bs : Breakers) : Breakers :=
  reportFailure name t3 (reportFailure name t2 (reportFailure name t1 bs))

end Breaker



namespace Registry

/-- Instance record of the service registry: `\x7b url, healthy, fails,
lastSeen, lastOk, meta \x7d`.  Every record the source creates (in `register`)
sets all six fields, so they are total here; the `|| 0` coercions the source
applies when reading `fails`, `lastSeen` and `lastOk` coincide with the
identity on total `Nat` fields. -/
structure Inst where
  url : String
  healthy : Bool
  fails : Nat
  lastSeen : Nat
  lastOk : Nat
  meta : List (String × String)
deriving Repr, DecidableEq

/-- Constant FAIL_OPEN_AFTER = 3 from the registry source. -/
def FAIL_OPEN_AFTER : Nat := 3

/-- Constant INSTANCE_TTL_MS = 5 * 60000 from the registry source. -/
def INSTANCE_TTL_MS : Nat := 300000

/-- Health-response body as far as `checkInstance` inspects it: the `status`
field (compared with the literal string `ok`) and the `service` field (tested
for truthiness). -/
structure HealthBody where
  status : Option String
  service : Option String
deriving Repr, DecidableEq

/-- Truthiness of an optional JS string: absent and empty strings are falsy. -/
def strTruthy (o : Option String) : Bool :=
  match o with
  | none => false
  | some s => !s.isEmpty

/-- Outcome of one `axios.get(url + /health)` probe: a rejected promise
(transport error or timeout), or a resolved response whose `data` is either a
falsy body (`none`) or an object. -/
inductive ProbeResult where
  | failure
  | response (data : Option HealthBody)
deriving Repr, DecidableEq

/-- The condition `data && (data.status === 'ok' || data.service)` from
`checkInstance` (registry source line 111). -/
def healthOk (data : Option HealthBody) : Bool :=
  match data with
  | none => false
  | some d => d.status = some "ok" || strTruthy d.service

/-- Probe outcome classified by `checkInstance`: a resolved response whose
body passes `healthOk`. -/
def probeOk (r : ProbeResult) : Bool :=
  match r with
  | .failure => false
  | .response data => healthOk data

/-- Failure path of `checkInstance`: `inst.fails = (inst.fails || 0) + 1;
if (inst.fails >= FAIL_OPEN_AFTER) inst.healthy = false`. -/
def probeFail (inst : Inst) : Inst :=
  let f := inst.fails + 1
  { inst with
      fails := f
      healthy := if FAIL_OPEN_AFTER ≤ f then false else inst.healthy }

/-- Embedding of `checkInstance` (registry source lines 107-124): on a body
passing `healthOk` the record becomes healthy with `fails = 0` and both
timestamps refreshed; a transport error, a timeout or any other body takes
the failure path. -/
def checkInstance (now : Nat) (r : ProbeResult) (inst : Inst) : Inst :=
  match r with
  | .failure => probeFail inst
  | .response data =>
    if healthOk data then
      { inst with healthy := true, fails := 0, lastSeen := now, lastOk := now }
    else
      probeFail inst

/-- Embedding of `cleanupAged` (registry source lines 127-133): keep only
instances whose `lastSeen` age at time `now` is within the TTL. -/
def cleanupAged (now : Nat) (list : List Inst) : List Inst :=
  list.filter (fun inst => now - inst.lastSeen ≤ INSTANCE_TTL_MS)

/-- Stable insertion into a list ascending in `lastOk`: the new element goes
before the first element with a key not smaller than its own. -/
def insertByLastOk (x : Inst) : List Inst → List Inst
  | [] => [x]
  | y :: ys =>
    if y.lastOk < x.lastOk then y :: insertByLastOk x ys else x :: y :: ys

/-- Embedding of `list.sort((a, b) => (a.lastOk || 0) - (b.lastOk || 0))`:
a stable ascending sort by `lastOk`, realised as insertion sort (JS
`Array.prototype.sort` is specified stable, and stable sorts under one
comparator agree extensionally). -/
def sortByLastOk : List Inst → List Inst
  | [] => []
  | x :: xs => insertByLastOk x (sortByLastOk xs)

/-- Embedding of the per-list body of registry `lookup` (source lines 91-98):
filter the healthy instances, return `null` when none remain, otherwise the
`url` of the head of the list sorted ascending by `lastOk`. -/
def lookupList (l : List Inst) : Option String :=
  let healthyL := l.filter (fun i => i.healthy)
  if healthyL.isEmpty then none
  else (sortByLastOk healthyL).head?.map (fun i => i.url)

/-- First element of a list attaining the minimal `lastOk`, by structural
recursion (ties keep the earlier element). -/
def firstMin : List Inst → Option Inst
  | [] => none
  | x :: xs =>
    match firstMin xs with
    | none => some x
    | some m => if x.lastOk ≤ m.lastOk then some x else some m

/-- Modelled from the spec: the selection policy of `lookup` in its own
words — the first instance, in insertion order, whose `lastOk` is no newer
than that of every instance in the list. -/
def specOldest (l : List Inst) : Option Inst :=
  l.find? (fun i => l.all (fun j => decide (i.lastOk ≤ j.lastOk)))

/-- Embedding of the upsert inside `register` (registry source lines 56-76):
the first record with a matching `url` is turned into a fresh healthy record
(metadata merged), otherwise a new record is appended at the end. -/
def mergeMeta (old new : List (String × String)) : List (String × String) :=
  old.filter (fun p => !(new.any (fun q => q.1 == p.1))) ++ new

def upsert (now : Nat) (url : String) (meta : List (String × String)) :
    List Inst → List Inst
  | [] => [⟨url, true, 0, now, now, meta⟩]
  | i :: rest =>
    if i.url = url then
      ⟨i.url, true, 0, now, now, mergeMeta i.meta meta⟩ :: rest
    else
      i :: upsert now url meta rest

/-- The registry service table `memory.services`: association list from
normalised service name to instance list. -/
abbrev Services := List (String × List Inst)

/-- Embedding of the key normalisation `String(name || '').trim()
.toLowerCase()`. -/
def nameKey (name : String) : String := name.trim.toLower

/-- Lookup of a service entry; `getList` lazily treats a missing entry as the
empty list. -/
def getList (st : Services) (k : String) : List Inst :=
  (st.lookup k).getD []

/-- Assignment `memory.services[k] = l` on the association list. -/
def setList (st : Services) (k : String) (l : List Inst) : Services :=
  if st.any (fun p => p.1 == k) then
    st.map (fun p => if p.1 == k then (k, l) else p)
  else
    st ++ [(k, l)]

/-- Embedding of `register` (registry source lines 51-79).  `load()` catches
its own errors (lines 21-32), so `st` is simply the in-memory state after the
load attempt; `persistOk = false` models an I/O failure of `fs.outputJson`
inside `persist()`, which `register` does not catch, so the promise rejects
(`Except.error`).  On success the source returns `true`. -/
def register (persistOk : Bool) (now : Nat) (name url : String)
    (meta : List (String × String)) (st : Services) :
    Except Unit (Bool × Services) :=
  let k := nameKey name
  let st2 := setList st k (upsert now url meta (getList st k))
  if persistOk then .ok (true, st2) else .error ()

/-- Embedding of registry `lookup` at the table level. -/
def lookup (st : Services) (name : String) : Option String :=
  lookupList (getList st (nameKey name))

/-- Embedding of `dump` (registry source lines 101-104): returns the current
table unchanged. -/
def dump (st : Services) : Services := st

/-- One health-check cycle over a single service list (registry source lines
147-153): probe every instance in order, then evict the aged ones.  The probe
outcome is a function of the probed base URL. -/
def runCycleList (now : Nat) (probe : String → ProbeResult)
    (list : List Inst) : List Inst :=
  cleanupAged now (list.map (fun i => checkInstance now (probe i.url) i))

/-- One background health-check cycle over the whole table (registry source
lines 143-158), after which the table is persisted and is what `dump`
returns. -/
def runCycle (now : Nat) (probe : String → ProbeResult) (st : Services) :
    Services :=
  st.map (fun p => (p.1, runCycleList now probe p.2))

end Registry

namespace Gateway

/-- The hardcoded FALLBACKS table of the gateway (lines 21-25); names outside
the table map to `undefined`. -/
def FALLBACKS (name : String) : Option String :=
  if name = "user-service" then some "http://localhost:3001"
  else if name = "list-service" then some "http://localhost:3002"
  else if name = "item-service" then some "http://localhost:3003"
  else none

/-- Outcome of the `serviceRegistry.lookup?.(name)` call as the gateway sees
it: the promise rejected, or it resolved with `null` or with a URL string. -/
inductive RegLookup where
  | threw
  | resolved (url : Option String)
deriving Repr, DecidableEq

/-- Embedding of the gateway `lookup` helper (lines 27-34):
`return url || FALLBACKS[name]` with the whole call wrapped in
`try/catch \x7b return FALLBACKS[name] \x7d`; an empty string is falsy. -/
def gatewayLookup (r : RegLookup) (name : String) : Option String :=
  match r with
  | .threw => FALLBACKS name
  | .resolved u =>
    match u with
    | some s => if s.isEmpty then FALLBACKS name else some s
    | none => FALLBACKS name

/-- Transport outcome of the forwarded (proxied) request. -/
inductive UpstreamResult where
  | ok
  | err
deriving Repr, DecidableEq

/-- Client-visible outcome of one proxied request. -/
inductive ProxyResponse where
  | proxied
  | unavailable502
deriving Repr, DecidableEq

/-- Effect the proxy handlers feed back into the circuit breaker:
`onProxyRes` reports success, `onError` reports failure. -/
inductive BreakerEvent where
  | success
  | failure
deriving Repr, DecidableEq

/-- Embedding of one request through `makeProxy(targetName)` (gateway lines
68-92): the target is resolved with the gateway `lookup` helper, the request
is forwarded to it, and the outcome drives `onProxyRes` / `onError`.  The
result carries the address actually forwarded to, the client response and the
breaker event; `none` covers only the unmodelled case of an `undefined`
target, which cannot arise for the three routed service names. -/
def proxyStep (name : String) (reg : RegLookup)
    (upstream : String → UpstreamResult) :
    Option (String × ProxyResponse × BreakerEvent) :=
  match gatewayLookup reg name with
  | none => none
  | some t =>
    match upstream t with
    | .ok => some (t, .proxied, .success)
    | .err => some (t, .unavailable502, .failure)

/-- Shopping-list record as far as the dashboard aggregation reads it:
`l.items` may be absent, each item has a `purchased` flag, and
`l.summary?.estimatedTotal` collapses to one optional number. -/
structure DashItem where
  purchased : Bool
deriving Repr, DecidableEq

structure DashList where
  items : Option (List DashItem)
  estimatedTotal : Option Int
deriving Repr, DecidableEq

/-- Client-visible outcome of `GET /api/dashboard`. -/
inductive DashResult where
  | missingToken
  | invalidToken
  | upstreamError
  | ok (userId : String) (totalLists totalItems purchasedItems : Nat)
      (estimatedTotal : Int) (catalogCount : Nat)
deriving Repr, DecidableEq

/-- Accumulation `totalItems += l.items?.length || 0` over the lists. -/
def totalItemsOf (lists : List DashList) : Nat :=
  lists.foldl (fun acc l => acc + ((l.items.map List.length).getD 0)) 0

/-- Accumulation `purchased += (l.items || []).filter(i => i.purchased).length`. -/
def purchasedOf (lists : List DashList) : Nat :=
  lists.foldl
    (fun acc l => acc + ((l.items.getD []).filter (fun i => i.purchased)).length)
    0

/-- Accumulation `estimatedTotal += l.summary?.estimatedTotal || 0`. -/
def estimatedTotalOf (lists : List DashList) : Int :=
  lists.foldl (fun acc l => acc + l.estimatedTotal.getD 0) 0

/-- Embedding of the `GET /api/dashboard` handler (gateway lines 123-167).
`verify` models `jwt.verify`: `none` is a thrown verification error,
otherwise the payload id.  `listsCall` models the awaited required call for
the user lists (an `error` also covers a body on which the summation code
throws, since both are caught by the same outer `try`); `itemsCall` models
the optional catalog call, resolving to `some n` for an array of `n` items
and `none` for a non-array body. -/
def dashboard (token : Option String) (verify : String → Option String)
    (listsCall : Except Unit (List DashList))
    (itemsCall : Except Unit (Option Nat)) : DashResult :=
  match token with
  | none => .missingToken
  | some t =>
    match verify t with
    | none => .invalidToken
    | some uid =>
      match listsCall with
      | .error _ => .upstreamError
      | .ok lists =>
        let catalogCount :=
          match itemsCall with
          | .error _ => 0
          | .ok arr =>
            match arr with
            | some n => n
            | none => 0
        .ok uid lists.length (totalItemsOf lists) (purchasedOf lists)
          (estimatedTotalOf lists) catalogCount

/-- Search-result list record: only the `name` field is read (it may be
absent). -/
structure SearchList where
  name : Option String
  id : Nat
deriving Repr, DecidableEq

/-- Opaque search item as echoed back by the handler. -/
structure SearchItem where
  id : Nat
deriving Repr, DecidableEq

/-- Character-list version of JS `String.prototype.startsWith`. -/
def startsWithL : List Char → List Char → Bool
  | [], _ => true
  | _ :: _, [] => false
  | n :: ns, h :: hs => n == h && startsWithL ns hs

/-- Character-list version of JS `String.prototype.includes`. -/
def includesL (needle : List Char) : List Char → Bool
  | [] => startsWithL needle []
  | h :: hs => startsWithL needle (h :: hs) || includesL needle hs

/-- JS `hay.includes(needle)`. -/
def strIncludes (hay needle : String) : Bool :=
  includesL needle.data hay.data

/-- The settled value of the lists branch of `GET /api/search`: with a token,
a fulfilled axios response carrying `data`; without a token, the pre-settled
sentinel object `\x7b status: 'fulfilled', value: \x7b data: [] \x7d \x7d`,
which `Promise.allSettled` wraps once more as an ordinary fulfilled value. -/
inductive ListsBranchVal where
  | axiosResp (data : List SearchList)
  | sentinel
deriving Repr, DecidableEq

/-- What `Promise.allSettled` delivers for the lists branch: `none` when the
branch rejected (only possible for the real axios call), otherwise the
fulfilled value. -/
def settledListsValue (token : Option String)
    (listsCall : Except Unit (List SearchList)) : Option ListsBranchVal :=
  match token with
  | some _ =>
    match listsCall with
    | .ok d => some (.axiosResp d)
    | .error _ => none
  | none => some .sentinel

/-- Property access `value.data` on the fulfilled lists value: an axios
response has a `data` field; the sentinel object has only `status` and
`value` fields, so `.data` is `undefined` (`none`). -/
def dataField : ListsBranchVal → Option (List SearchList)
  | .axiosResp d => some d
  | .sentinel => none

/-- Client-visible outcome of `GET /api/search`: a JSON response, or a
`TypeError` thrown by calling `.filter` on `undefined`. -/
inductive SearchOutcome where
  | ok (items : List SearchItem) (lists : List SearchList)
  | typeError
deriving Repr, DecidableEq

/-- Embedding of the `GET /api/search` handler (gateway lines 170-190).  The
source computes `q = String(req.query.q || '').trim()` once at entry and
uses only that trimmed value, so `q` here is the already-trimmed query. -/
def searchHandler (q : String) (token : Option String)
    (itemsCall : Except Unit (List SearchItem))
    (listsCall : Except Unit (List SearchList)) : SearchOutcome :=
  if q.isEmpty then .ok [] []
  else
    let items :=
      match itemsCall with
      | .ok d => d
      | .error _ => []
    let lists? :=
      match settledListsValue token listsCall with
      | some v => dataField v
      | none => some []
    match lists? with
    | none => .typeError
    | some ls =>
      .ok items
        (ls.filter (fun l =>
          strIncludes ((l.name.getD "").toLower) (q.toLower)))

end Gateway

namespace Breaker

lemma failThree_apply (bs : Breakers) (name : String) (t1 t2 t3 : Nat)
    (h0 : bs name = none) :
    failThree name t1 t2 t3 bs name = some ⟨3, some t3⟩ := by
  simp [failThree, reportFailure, h0, jsOrNull, MAX_FAILS]

/-- C1: starting with no breaker entry for a service, after exactly three
consecutive `reportFailure` calls (trip time `t3`), `canPass` is false
immediately; it is true exactly when more than the 30s cooldown has elapsed
since the trip, in which case the entry is reset to
`\x7b failures: 0, openedAt: null \x7d` as a side effect; and it is true
immediately after any `reportSuccess`. -/
theorem canPass_after_three_failures (bs : Breakers) (name : String)
    (t1 t2 t3 : Nat) (h0 : bs name = none) :
    (canPass name t3 (failThree name t1 t2 t3 bs)).1 = false
    ∧ (∀ now, (canPass name now (failThree name t1 t2 t3 bs)).1 = true
        ↔ t3 + COOLDOWN_MS < now)
    ∧ (∀ now, t3 + COOLDOWN_MS < now →
        (canPass name now (failThree name t1 t2 t3 bs)).2 name = some ⟨0, none⟩)
    ∧ (∀ bs2 : Breakers, ∀ now,
        (canPass name now (reportSuccess name bs2)).1 = true) := by
  have hS := failThree_apply bs name t1 t2 t3 h0
  refine ⟨?_, ?_, ?_, ?_⟩
  · simp [canPass, hS, MAX_FAILS, COOLDOWN_MS]
  · intro now
    by_cases h : COOLDOWN_MS < now - t3
    · simp only [canPass, hS, MAX_FAILS, COOLDOWN_MS] at h ⊢
      simp only [Option.getD_some, h, if_true]
      constructor
      · intro _; omega
      · intro _; norm_num
    · simp only [canPass, hS, MAX_FAILS, COOLDOWN_MS] at h ⊢
      simp only [Option.getD_some, h, if_false]
      constructor
      · intro hfalse; simp at hfalse
      · intro hlt; omega
  · intro now hlt
    have h : COOLDOWN_MS < now - t3 := by
      simp only [COOLDOWN_MS] at hlt ⊢; omega
    simp [canPass, hS, MAX_FAILS, h]
  · intro bs2 now
    simp [canPass, reportSuccess, MAX_FAILS]

/-- Witness for C1 at a concrete input: the empty breaker table and trip
times 1, 2, 3 for the user service. -/
theorem canPass_after_three_failures_witness :
    ((fun _ => none : Breakers) "user-service" = none)
    ∧ ((canPass "user-service" 3
          (failThree "user-service" 1 2 3 (fun _ => none))).1 = false
      ∧ (∀ now, (canPass "user-service" now
            (failThree "user-service" 1 2 3 (fun _ => none))).1 = true
          ↔ 3 + COOLDOWN_MS < now)
      ∧ (∀ now, 3 + COOLDOWN_MS < now →
          (canPass "user-service" now
            (failThree "user-service" 1 2 3 (fun _ => none))).2 "user-service"
            = some ⟨0, none⟩)
      ∧ (∀ bs2 : Breakers, ∀ now,
          (canPass "user-service" now
            (reportSuccess "user-service" bs2)).1 = true)) :=
  ⟨rfl, canPass_after_three_failures (fun _ => none) "user-service" 1 2 3 rfl⟩

/-- C2 counterexample: from the empty table, three failures at times 10, 20,
30 trip the breaker with `openedAt = 30`; a fourth failure at time 40, made
while the count is already at the threshold, sets `openedAt = 40` instead of
leaving it at the trip time 30 as the claim states. -/
theorem reportFailure_refreshes_openedAt_cex :
    failThree "item-service" 10 20 30 (fun _ => none) "item-service"
      = some ⟨3, some 30⟩
    ∧ reportFailure "item-service" 40
        (failThree "item-service" 10 20 30 (fun _ => none)) "item-service"
      = some ⟨4, some 40⟩
    ∧ reportFailure "item-service" 40
        (failThree "item-service" 10 20 30 (fun _ => none)) "item-service"
      ≠ some ⟨4, some 30⟩ := by
  refine ⟨?_, ?_, ?_⟩ <;>
    simp [failThree, reportFailure, jsOrNull, MAX_FAILS]

/-- C2 amended: `reportFailure` increments the count, and sets `openedAt` to
the current time on every call whose resulting count is at or above the
threshold — in particular any failure reported while the count is already at
or above 3 refreshes `openedAt`, so the cooldown is measured from the most
recent failure, not from the first trip. -/
theorem reportFailure_openedAt_last_failure (name : String) (now : Nat)
    (bs : Breakers) (b : BreakerState) (hb : bs name = some b)
    (h3 : MAX_FAILS ≤ b.failures + 1) :
    (reportFailure name now bs) name = some ⟨b.failures + 1, some now⟩ := by
  simp [reportFailure, hb, h3]

/-- Witness for the amended C2: a service already at 3 failures with trip
time 5; one more failure at time 40 yields count 4 and `openedAt = 40`. -/
theorem reportFailure_openedAt_last_failure_witness :
    ((fun n => if n = "svc" then some (⟨3, some 5⟩ : BreakerState) else none)
        "svc" = some ⟨3, some 5⟩)
    ∧ MAX_FAILS ≤ 3 + 1
    ∧ (reportFailure "svc" 40
        (fun n => if n = "svc" then some (⟨3, some 5⟩ : BreakerState) else none))
        "svc" = some ⟨4, some 40⟩ :=
  ⟨rfl, by decide,
    reportFailure_openedAt_last_failure "svc" 40 _ ⟨3, some 5⟩ rfl (by decide)⟩

end Breaker

namespace Registry

lemma firstMin_eq_none {l : List Inst} : firstMin l = none ↔ l = [] := by
  cases l with
  | nil => simp [firstMin]
  | cons x xs =>
    cases hxm : firstMin xs <;> simp [firstMin, hxm]
    split <;> simp

lemma firstMin_mem : ∀ (l : List Inst) (m : Inst), firstMin l = some m →
    m ∈ l := by
  intro l
  induction l with
  | nil => intro m h; simp [firstMin] at h
  | cons x xs ih =>
    intro m h
    cases hxm : firstMin xs with
    | none =>
      simp only [firstMin, hxm] at h
      simp at h
      subst h
      exact List.mem_cons_self _ _
    | some m2 =>
      simp only [firstMin, hxm] at h
      by_cases hle : x.lastOk ≤ m2.lastOk
      · rw [if_pos hle] at h
        simp at h
        subst h
        exact List.mem_cons_self _ _
      · rw [if_neg hle] at h
        simp at h
        subst h
        exact List.mem_cons_of_mem x (ih m2 hxm)

lemma firstMin_le : ∀ (l : List Inst) (m : Inst), firstMin l = some m →
    ∀ j ∈ l, m.lastOk ≤ j.lastOk := by
  intro l
  induction l with
  | nil => intro m h; simp [firstMin] at h
  | cons x xs ih =>
    intro m h j hj
    cases hxm : firstMin xs with
    | none =>
      simp only [firstMin, hxm] at h
      simp at h
      subst h
      have hxs : xs = [] := firstMin_eq_none.mp hxm
      subst hxs
      simp at hj
      subst hj
      exact le_refl _
    | some m2 =>
      simp only [firstMin, hxm] at h
      by_cases hle : x.lastOk ≤ m2.lastOk
      · rw [if_pos hle] at h
        simp at h
        subst h
        rcases List.mem_cons.mp hj with hjx | hjxs
        · subst hjx; exact le_refl _
        · exact le_trans hle (ih m2 hxm j hjxs)
      · rw [if_neg hle] at h
        simp at h
        subst h
        rcases List.mem_cons.mp hj with hjx | hjxs
        · subst hjx; omega
        · exact ih m2 hxm j hjxs

lemma find?_strengthen {α : Type} {p q : α → Bool} {l : List α} {m : α}
    (himp : ∀ a, p a = true → q a = true) (hq : l.find? q = some m)
    (hpm : p m = true) : l.find? p = some m := by
  induction l with
  | nil => simp at hq
  | cons x xs ih =>
    by_cases hqx : q x = true
    · rw [List.find?_cons] at hq
      simp only [hqx] at hq
      simp at hq
      subst hq
      rw [List.find?_cons]
      simp only [hpm]
    · have hqf : q x = false := by
        cases hb : q x with
        | true => exact absurd hb hqx
        | false => rfl
      have hpf : p x = false := by
        cases hb : p x with
        | true => exact absurd (himp x hb) hqx
        | false => rfl
      rw [List.find?_cons] at hq
      simp only [hqf] at hq
      rw [List.find?_cons]
      simp only [hpf]
      exact ih hq

lemma head?_sortByLastOk (l : List Inst) :
    (sortByLastOk l).head? = firstMin l := by
  induction l with
  | nil => rfl
  | cons x xs ih =>
    show (insertByLastOk x (sortByLastOk xs)).head? = firstMin (x :: xs)
    cases hs : sortByLastOk xs with
    | nil =>
      have hfm : firstMin xs = none := by rw [← ih, hs]; rfl
      simp only [firstMin, hfm]
      rfl
    | cons y ys =>
      have hfm : firstMin xs = some y := by rw [← ih, hs]; rfl
      simp only [firstMin, hfm]
      by_cases h : y.lastOk < x.lastOk
      · simp only [insertByLastOk, if_pos h]
        rw [if_neg (by omega)]
        rfl
      · simp only [insertByLastOk, if_neg h]
        rw [if_pos (by omega)]
        rfl

lemma specOldest_eq_firstMin (l : List Inst) : specOldest l = firstMin l := by
  induction l with
  | nil => rfl
  | cons x xs ih =>
    cases hf : firstMin xs with
    | none =>
      have hxs : xs = [] := firstMin_eq_none.mp hf
      subst hxs
      simp [specOldest, firstMin, List.find?_cons]
    | some m =>
      have hmem := firstMin_mem xs m hf
      have hall := firstMin_le xs m hf
      by_cases hxm : x.lastOk ≤ m.lastOk
      · have hpx : ((x :: xs).all
            (fun j => decide (x.lastOk ≤ j.lastOk))) = true := by
          simp only [List.all_eq_true, decide_eq_true_eq]
          intro j hj
          rcases List.mem_cons.mp hj with hjx | hjxs
          · subst hjx; exact le_refl _
          · exact le_trans hxm (hall j hjxs)
        have lhs : specOldest (x :: xs) = some x := by
          simp only [specOldest, List.find?_cons, hpx]
        have rhs : firstMin (x :: xs) = some x := by
          simp only [firstMin, hf, if_pos hxm]
        rw [lhs, rhs]
      · have hpx : ((x :: xs).all
            (fun j => decide (x.lastOk ≤ j.lastOk))) = false := by
          cases hb : ((x :: xs).all (fun j => decide (x.lastOk ≤ j.lastOk)))
            with
          | false => rfl
          | true =>
            exfalso
            have hmle := (List.all_eq_true.mp hb) m
              (List.mem_cons_of_mem x hmem)
            simp at hmle
            omega
        have hqm : List.find?
            (fun i => xs.all (fun j => decide (i.lastOk ≤ j.lastOk))) xs
            = some m := by
          have hx2 := ih.trans hf
          simp only [specOldest] at hx2
          exact hx2
        have hpm : ((fun i => (x :: xs).all
            (fun j => decide (i.lastOk ≤ j.lastOk))) m) = true := by
          simp only [List.all_eq_true, decide_eq_true_eq]
          intro j hj
          rcases List.mem_cons.mp hj with hjx | hjxs
          · subst hjx; omega
          · exact hall j hjxs
        have himp : ∀ a : Inst,
            ((fun i => (x :: xs).all
              (fun j => decide (i.lastOk ≤ j.lastOk))) a) = true →
            ((fun i => xs.all
              (fun j => decide (i.lastOk ≤ j.lastOk))) a) = true := by
          intro a ha
          simp only [List.all_eq_true] at ha ⊢
          exact fun j hj => ha j (List.mem_cons_of_mem x hj)
        have hfind := find?_strengthen himp hqm hpm
        have lhs : specOldest (x :: xs) = some m := by
          simp only [specOldest, List.find?_cons, hpx]
          exact hfind
        have rhs : firstMin (x :: xs) = some m := by
          simp only [firstMin, hf, if_neg hxm]
        rw [lhs, rhs]

lemma lookupList_eq_firstMin (l : List Inst) :
    lookupList l
      = (firstMin (l.filter (fun i => i.healthy))).map (fun i => i.url) := by
  unfold lookupList
  by_cases h : (l.filter (fun i => i.healthy)).isEmpty
  · have hnil : l.filter (fun i => i.healthy) = [] :=
      List.isEmpty_iff.mp h
    simp [h, hnil, firstMin]
  · simp [h, head?_sortByLastOk]

lemma checkInstance_url (now : Nat) (r : ProbeResult) (inst : Inst) :
    (checkInstance now r inst).url = inst.url := by
  cases r with
  | failure => rfl
  | response d =>
    by_cases h : healthOk d = true
    · simp [checkInstance, h]
    · simp only [checkInstance]
      rw [if_neg h]
      rfl

lemma probeFail_lastSeen (inst : Inst) :
    (probeFail inst).lastSeen = inst.lastSeen := rfl

lemma probeFail_url (inst : Inst) : (probeFail inst).url = inst.url := rfl

lemma lookupList_sound {l : List Inst} {u : String}
    (h : lookupList l = some u) :
    ∃ i ∈ l, i.healthy = true ∧ i.url = u := by
  rw [lookupList_eq_firstMin] at h
  cases hf : firstMin (l.filter (fun i => i.healthy)) with
  | none => rw [hf] at h; simp at h
  | some m =>
    rw [hf] at h
    simp at h
    have hm := firstMin_mem _ m hf
    rw [List.mem_filter] at hm
    exact ⟨m, hm.1, by simpa using hm.2, h⟩

lemma triple_probeFail_unhealthy (inst : Inst) :
    (probeFail (probeFail (probeFail inst))).healthy = false := by
  simp only [probeFail, FAIL_OPEN_AFTER]
  rw [if_pos (by omega)]

lemma upsert_url_healthy : ∀ (l : List Inst) (now : Nat) (url : String)
    (meta : List (String × String)) (i0 : Inst),
    l.filter (fun j => j.url == url) = [i0] →
    ∀ j ∈ upsert now url meta l, j.url = url → j.healthy = true := by
  intro l
  induction l with
  | nil =>
    intro now url meta i0 hf j hj hurl
    simp at hf
  | cons x xs ih =>
    intro now url meta i0 hf j hj hurl
    by_cases hx : x.url = url
    · rw [List.filter_cons] at hf
      simp only [hx] at hf
      simp at hf
      obtain ⟨hxi0, hfxs⟩ := hf
      simp only [upsert, if_pos hx] at hj
      rcases List.mem_cons.mp hj with hjh | hjt
      · subst hjh; rfl
      · exact absurd hurl (hfxs j hjt)
    · rw [List.filter_cons] at hf
      simp [hx] at hf
      simp only [upsert, if_neg hx] at hj
      rcases List.mem_cons.mp hj with hjh | hjt
      · subst hjh; exact absurd hurl hx
      · exact ih now url meta i0 hf j hjt hurl

/-- C3 counterexample: a response body with no `status` field but a truthy
`service` field is counted as a probe success by `checkInstance` — the
failure count resets to 0 (instead of incrementing from 2 to 3), the record
turns healthy and both timestamps refresh — although the body does not
signal an `ok` status. -/
theorem checkInstance_service_truthy_cex :
    checkInstance 10 (.response (some ⟨none, some "list-service"⟩))
        ⟨"http://localhost:3002", true, 2, 5, 5, []⟩
      = ⟨"http://localhost:3002", true, 0, 10, 10, []⟩
    ∧ (⟨none, some "list-service"⟩ : HealthBody).status ≠ some "ok"
    ∧ (checkInstance 10 (.response (some ⟨none, some "list-service"⟩))
        ⟨"http://localhost:3002", true, 2, 5, 5, []⟩).fails ≠ 2 + 1 := by
  refine ⟨?_, ?_, ?_⟩ <;> decide

/-- C3 amended: a probe is counted as a success — `fails` reset to 0,
`healthy` set to true, `lastSeen` and `lastOk` refreshed — exactly when the
response resolves with a truthy body whose `status` field is the string `ok`
or whose `service` field is truthy; every transport error, timeout, falsy
body, or body failing both tests takes the failure path, which increments
`fails`. -/
theorem checkInstance_success_condition (now : Nat) (r : ProbeResult)
    (inst : Inst) :
    checkInstance now r inst
      = (if probeOk r then
           { inst with healthy := true, fails := 0, lastSeen := now, lastOk := now }
         else probeFail inst)
    ∧ (probeOk r = true
        ↔ ∃ d : HealthBody, r = .response (some d)
            ∧ (d.status = some "ok" ∨ strTruthy d.service = true))
    ∧ (probeFail inst).fails = inst.fails + 1 := by
  refine ⟨?_, ?_, rfl⟩
  · cases r with
    | failure => rfl
    | response d =>
      by_cases h : healthOk d = true
      · simp [checkInstance, probeOk, h]
      · have hf : healthOk d = false := by
          cases hb : healthOk d with
          | true => exact absurd hb h
          | false => rfl
        simp [checkInstance, probeOk, hf]
  · cases r with
    | failure => simp [probeOk]
    | response d =>
      cases d with
      | none => simp [probeOk, healthOk]
      | some b =>
        simp only [probeOk, healthOk, Bool.or_eq_true, decide_eq_true_eq]
        constructor
        · intro hb
          exact ⟨b, rfl, hb⟩
        · rintro ⟨d2, hd2, hcond⟩
          cases hd2
          exact hcond

/-- C4: an instance that takes three consecutive failed probes (with no
success or re-registration in between) has `healthy = false`; as long as the
record stays unhealthy, `lookup` never returns its URL (the URL being unique
in its service list); further failed probes keep it unhealthy, while a
successful probe or a re-registration of its URL turns `healthy` back to
true. -/
theorem lookup_skips_tripped_instance (inst : Inst) (l : List Inst)
    (hf : l.filter (fun j => j.url == inst.url)
            = [probeFail (probeFail (probeFail inst))]) :
    (probeFail (probeFail (probeFail inst))).healthy = false
    ∧ lookupList l ≠ some inst.url
    ∧ (∀ i : Inst, i.healthy = false → (probeFail i).healthy = false)
    ∧ (∀ now r, probeOk r = true →
        (checkInstance now r (probeFail (probeFail (probeFail inst)))).healthy
          = true)
    ∧ (∀ now meta, ∀ j ∈ upsert now inst.url meta l,
        j.url = inst.url → j.healthy = true) := by
  refine ⟨triple_probeFail_unhealthy inst, ?_, ?_, ?_, ?_⟩
  · intro hlk
    obtain ⟨i, hi, hih, hiu⟩ := lookupList_sound hlk
    have : i ∈ l.filter (fun j => j.url == inst.url) :=
      List.mem_filter.mpr ⟨hi, by simp [hiu]⟩
    rw [hf] at this
    simp at this
    subst this
    rw [triple_probeFail_unhealthy inst] at hih
    exact Bool.false_ne_true hih
  · intro i hih
    simp only [probeFail]
    split
    · rfl
    · exact hih
  · intro now r hr
    cases r with
    | failure => simp [probeOk] at hr
    | response d =>
      simp only [probeOk] at hr
      simp [checkInstance, hr]
  · intro now meta j hj hurl
    exact upsert_url_healthy l now inst.url meta _ hf j hj hurl

/-- Witness for C4 at a concrete input: an instance probed to failure three
times sits unhealthy in a two-instance list and is never returned. -/
theorem lookup_skips_tripped_instance_witness :
    ([probeFail (probeFail (probeFail ⟨"http://a", true, 0, 0, 0, []⟩)),
      ⟨"http://b", true, 0, 0, 7, []⟩].filter
        (fun j => j.url == (⟨"http://a", true, 0, 0, 0, []⟩ : Inst).url)
      = [probeFail (probeFail (probeFail ⟨"http://a", true, 0, 0, 0, []⟩))])
    ∧ ((probeFail (probeFail (probeFail
          (⟨"http://a", true, 0, 0, 0, []⟩ : Inst)))).healthy = false
      ∧ lookupList
          [probeFail (probeFail (probeFail ⟨"http://a", true, 0, 0, 0, []⟩)),
           ⟨"http://b", true, 0, 0, 7, []⟩]
          ≠ some (⟨"http://a", true, 0, 0, 0, []⟩ : Inst).url
      ∧ (∀ i : Inst, i.healthy = false → (probeFail i).healthy = false)
      ∧ (∀ now r, probeOk r = true →
          (checkInstance now r (probeFail (probeFail (probeFail
            (⟨"http://a", true, 0, 0, 0, []⟩ : Inst))))).healthy = true)
      ∧ (∀ now meta, ∀ j ∈ upsert now
            (⟨"http://a", true, 0, 0, 0, []⟩ : Inst).url meta
            [probeFail (probeFail (probeFail ⟨"http://a", true, 0, 0, 0, []⟩)),
             ⟨"http://b", true, 0, 0, 7, []⟩],
          j.url = (⟨"http://a", true, 0, 0, 0, []⟩ : Inst).url →
            j.healthy = true)) :=
  ⟨by decide, lookup_skips_tripped_instance ⟨"http://a", true, 0, 0, 0, []⟩ _
    (by decide)⟩

lemma checkInstance_not_ok (now : Nat) (r : ProbeResult) (inst : Inst)
    (h : probeOk r = false) : checkInstance now r inst = probeFail inst := by
  cases r with
  | failure => rfl
  | response d =>
    simp only [probeOk] at h
    simp [checkInstance, h]

/-- C5 counterexample: an instance whose `lastSeen` is already older than
the 5-minute TTL when the health-check cycle runs, but whose probe succeeds
in that cycle, has `lastSeen` refreshed by the probe before `cleanupAged`
and is kept — its URL is still in the service list the cycle produces — so
staleness at the time the cycle runs does not by itself force removal. -/
theorem stale_instance_kept_on_success_cex :
    INSTANCE_TTL_MS
      < 300001 - (⟨"http://x", true, 0, 0, 0, []⟩ : Inst).lastSeen
    ∧ (runCycleList 300001
        (fun _ => ProbeResult.response (some ⟨some "ok", none⟩))
        [(⟨"http://x", true, 0, 0, 0, []⟩ : Inst)]).map (fun j => j.url)
      = ["http://x"] := by
  constructor <;> decide

/-- C5 amended: an instance whose probe in a health-check cycle does not
succeed (transport error, timeout, or a body not counted as ok) and whose
`lastSeen` is older than the 5-minute TTL at the time the cycle runs is
removed from its service list by that cycle — no hypothesis on its `healthy`
flag — and its URL is therefore absent from the table `dump()` returns after
the cycle. -/
theorem stale_instance_evicted (now : Nat) (probe : String → ProbeResult)
    (st : Services) (k : String) (l : List Inst) (inst : Inst)
    (hst : (k, l) ∈ st) (hmem : inst ∈ l)
    (hfail : probeOk (probe inst.url) = false)
    (hstale : INSTANCE_TTL_MS < now - inst.lastSeen)
    (huniq : ∀ j ∈ l, j.url = inst.url → j = inst) :
    (k, runCycleList now probe l) ∈ dump (runCycle now probe st)
    ∧ inst.url ∉ (runCycleList now probe l).map (fun j => j.url) := by
  constructor
  · exact List.mem_map_of_mem (fun p => (p.1, runCycleList now probe p.2)) hst
  · intro hin
    rw [List.mem_map] at hin
    obtain ⟨j2, hj2, hj2url⟩ := hin
    simp only [runCycleList, cleanupAged] at hj2
    rw [List.mem_filter] at hj2
    obtain ⟨hj2m, hj2keep⟩ := hj2
    rw [List.mem_map] at hj2m
    obtain ⟨j, hj, hjeq⟩ := hj2m
    have hjurl : j.url = inst.url := by
      rw [← hj2url, ← hjeq, checkInstance_url]
    have hji : j = inst := huniq j hj hjurl
    subst hji
    rw [checkInstance_not_ok now (probe j.url) j hfail] at hjeq
    have hseen : j2.lastSeen = j.lastSeen := by
      rw [← hjeq]
      exact probeFail_lastSeen j
    rw [hseen] at hj2keep
    simp at hj2keep
    omega

/-- Witness for the amended C5 at a concrete input: a healthy but stale
instance whose probe does not succeed (here a transport failure) is evicted
by the cycle. -/
theorem stale_instance_evicted_witness :
    (("list-service", [(⟨"http://x", true, 0, 0, 0, []⟩ : Inst)])
        ∈ [("list-service", [(⟨"http://x", true, 0, 0, 0, []⟩ : Inst)])])
    ∧ ((⟨"http://x", true, 0, 0, 0, []⟩ : Inst)
        ∈ [(⟨"http://x", true, 0, 0, 0, []⟩ : Inst)])
    ∧ probeOk ((fun _ => ProbeResult.failure) "http://x") = false
    ∧ INSTANCE_TTL_MS
        < 300001 - (⟨"http://x", true, 0, 0, 0, []⟩ : Inst).lastSeen
    ∧ (("list-service",
          runCycleList 300001 (fun _ => ProbeResult.failure)
            [(⟨"http://x", true, 0, 0, 0, []⟩ : Inst)])
        ∈ dump (runCycle 300001 (fun _ => ProbeResult.failure)
            [("list-service", [(⟨"http://x", true, 0, 0, 0, []⟩ : Inst)])])
      ∧ (⟨"http://x", true, 0, 0, 0, []⟩ : Inst).url
          ∉ (runCycleList 300001 (fun _ => ProbeResult.failure)
              [(⟨"http://x", true, 0, 0, 0, []⟩ : Inst)]).map
              (fun j => j.url)) :=
  ⟨by decide, by decide, rfl, by decide,
    stale_instance_evicted 300001 (fun _ => ProbeResult.failure)
      [("list-service", [⟨"http://x", true, 0, 0, 0, []⟩])] "list-service"
      [⟨"http://x", true, 0, 0, 0, []⟩] ⟨"http://x", true, 0, 0, 0, []⟩
      (by decide) (by decide) rfl (by decide)
      (by intro j hj hurl; simp at hj; exact hj)⟩

/-- C6: registry `lookup` returns exactly the URL of the healthy instance
with the oldest `lastOk`, ties broken by insertion order (the first instance
whose `lastOk` is no newer than every other healthy one), and returns the
`null` sentinel exactly when the service has no healthy instance. -/
theorem lookup_picks_oldest_healthy (st : Services) (name : String) :
    lookup st name
      = (specOldest ((getList st (nameKey name)).filter
          (fun i => i.healthy))).map (fun i => i.url)
    ∧ (lookup st name).isNone
      = ((getList st (nameKey name)).filter (fun i => i.healthy)).isEmpty := by
  constructor
  · show lookupList (getList st (nameKey name)) = _
    rw [lookupList_eq_firstMin, specOldest_eq_firstMin]
  · show (lookupList (getList st (nameKey name))).isNone = _
    rw [lookupList_eq_firstMin]
    cases hf : firstMin ((getList st (nameKey name)).filter
        (fun i => i.healthy)) with
    | none =>
      have : (getList st (nameKey name)).filter (fun i => i.healthy) = [] :=
        firstMin_eq_none.mp hf
      rw [this]
      rfl
    | some m =>
      have hmem := firstMin_mem _ m hf
      have hne : (getList st (nameKey name)).filter (fun i => i.healthy)
          ≠ [] := by
        intro hnil
        rw [hnil] at hmem
        simp at hmem
      simp [List.isEmpty_iff, hne]

/-- C7 counterexample: with a failing persist, `register` rejects — the
promise surfaces the storage I/O error to the caller instead of swallowing
it, so `register` does not always complete successfully. -/
theorem register_persist_failure_rejects_cex :
    register false 0 "list-service" "http://localhost:3002" [] []
      = .error () := by
  rfl

/-- C7 amended: `register` never fails with an error to the caller except on
a storage I/O failure of the final `persist` (write) — a failing persist
propagates as a rejected promise, while a failing `load` (read) is logged
and swallowed inside `load` itself; with a succeeding persist, `register`
always resolves with `true`. -/
theorem register_fails_only_on_persist (persistOk : Bool) (now : Nat)
    (name url : String) (meta : List (String × String)) (st : Services) :
    (persistOk = false → register persistOk now name url meta st = .error ())
    ∧ (persistOk = true → register persistOk now name url meta st
        = .ok (true, setList st (nameKey name)
            (upsert now url meta (getList st (nameKey name))))) := by
  constructor
  · intro h; subst h; rfl
  · intro h; subst h; rfl

/-- Witness for the amended C7: both persist outcomes at a concrete input. -/
theorem register_fails_only_on_persist_witness :
    register false 7 "user-service" "http://localhost:3001" [] []
      = .error ()
    ∧ register true 7 "user-service" "http://localhost:3001" [] []
      = .ok (true, setList [] (nameKey "user-service")
          (upsert 7 "http://localhost:3001" []
            (getList [] (nameKey "user-service")))) :=
  ⟨(register_fails_only_on_persist false 7 "user-service"
      "http://localhost:3001" [] []).1 rfl,
   (register_fails_only_on_persist true 7 "user-service"
      "http://localhost:3001" [] []).2 rfl⟩

end Registry

namespace Gateway

/-- C8 counterexample: when the registry lookup resolves with the null
sentinel (no healthy instance) for the list service, the gateway substitutes
the hardcoded fallback address and forwards the request there — here the
forwarded request succeeds and the breaker even records a success — instead
of treating the lookup miss as an upstream failure. -/
theorem proxy_lookup_none_cex :
    gatewayLookup (.resolved none) "list-service"
      = some "http://localhost:3002"
    ∧ proxyStep "list-service" (.resolved none) (fun _ => .ok)
      = some ("http://localhost:3002", .proxied, .success) := by
  constructor <;> decide

/-- C8 amended: when the registry lookup finds no healthy instance for a
service with a fallback entry, the gateway resolves the target to the
hardcoded fallback address and forwards the request there; the request is
counted against the breaker and surfaced as an upstream-unavailable error
only if the forwarded request itself fails. -/
theorem proxy_lookup_none_uses_fallback (name fb : String)
    (upstream : String → UpstreamResult) (hfb : FALLBACKS name = some fb) :
    gatewayLookup (.resolved none) name = some fb
    ∧ proxyStep name (.resolved none) upstream
      = some (fb, if upstream fb = .ok then (.proxied, .success)
                  else (.unavailable502, .failure)) := by
  have hg : gatewayLookup (.resolved none) name = some fb := by
    simp [gatewayLookup, hfb]
  refine ⟨hg, ?_⟩
  simp only [proxyStep, hg]
  cases hu : upstream fb with
  | ok => simp [hu]
  | err => simp [hu]

/-- Witness for the amended C8: item service with a failing fallback
upstream. -/
theorem proxy_lookup_none_uses_fallback_witness :
    FALLBACKS "item-service" = some "http://localhost:3003"
    ∧ (gatewayLookup (.resolved none) "item-service"
        = some "http://localhost:3003"
      ∧ proxyStep "item-service" (.resolved none)
          (fun _ => UpstreamResult.err)
        = some ("http://localhost:3003",
            if (fun _ => UpstreamResult.err) "http://localhost:3003"
                = UpstreamResult.ok then
              (ProxyResponse.proxied, BreakerEvent.success)
            else (ProxyResponse.unavailable502, BreakerEvent.failure))) :=
  ⟨by decide, proxy_lookup_none_uses_fallback "item-service"
    "http://localhost:3003" (fun _ => UpstreamResult.err) (by decide)⟩

/-- C9: for a dashboard request with a valid credential, a failure of the
required lists call answers the whole request with the upstream error, while
a failure of only the optional catalog call still yields the full response
derived from the lists data with `catalogCount` at its neutral default 0. -/
theorem dashboard_optional_catalog (t uid : String) (token : Option String)
    (verify : String → Option String)
    (listsCall : Except Unit (List DashList))
    (itemsCall : Except Unit (Option Nat))
    (htok : token = some t) (hver : verify t = some uid) :
    (listsCall = .error () →
      dashboard token verify listsCall itemsCall = .upstreamError)
    ∧ (∀ lists, listsCall = .ok lists → itemsCall = .error () →
        dashboard token verify listsCall itemsCall
          = .ok uid lists.length (totalItemsOf lists) (purchasedOf lists)
              (estimatedTotalOf lists) 0) := by
  subst htok
  constructor
  · intro h
    subst h
    simp [dashboard, hver]
  · intro lists h hitems
    subst h
    subst hitems
    simp [dashboard, hver]

/-- Witness for C9 at a concrete input: one list with two items, one of them
purchased, and a failing catalog call. -/
theorem dashboard_optional_catalog_witness :
    ((some "tok" : Option String) = some "tok")
    ∧ ((fun s => if s = "tok" then some "u1" else none) "tok" = some "u1")
    ∧ (((.error () : Except Unit (List DashList)) = .error () →
        dashboard (some "tok") (fun s => if s = "tok" then some "u1" else none)
          (.error ()) (.error ()) = .upstreamError)
      ∧ (∀ lists,
          (.error () : Except Unit (List DashList)) = .ok lists →
          (.error () : Except Unit (Option Nat)) = .error () →
          dashboard (some "tok")
            (fun s => if s = "tok" then some "u1" else none)
            (.error ()) (.error ())
            = .ok "u1" lists.length (totalItemsOf lists) (purchasedOf lists)
                (estimatedTotalOf lists) 0))
    ∧ dashboard (some "tok") (fun s => if s = "tok" then some "u1" else none)
        (.ok [⟨some [⟨true⟩, ⟨false⟩], some 30⟩]) (.error ())
        = .ok "u1" 1 2 1 30 0 :=
  ⟨rfl, by decide,
   dashboard_optional_catalog "tok" "u1" (some "tok")
     (fun s => if s = "tok" then some "u1" else none) (.error ()) (.error ())
     rfl (by decide),
   ((dashboard_optional_catalog "tok" "u1" (some "tok")
       (fun s => if s = "tok" then some "u1" else none)
       (.ok [⟨some [⟨true⟩, ⟨false⟩], some 30⟩]) (.error ())
       rfl (by decide)).2
     [⟨some [⟨true⟩, ⟨false⟩], some 30⟩] rfl rfl).trans (by decide)⟩

/-- C10: for a search request with a non-empty query and no bearer token the
handler never sends the empty-list response: the pre-settled sentinel object
is wrapped a second time by `Promise.allSettled`, its fulfilled value has no
`data` field, and the `.filter` call on that `undefined` value throws a
`TypeError` instead. -/
theorem search_without_token_throws (q : String)
    (itemsCall : Except Unit (List SearchItem))
    (listsCall : Except Unit (List SearchList))
    (hq : q.isEmpty = false) :
    searchHandler q none itemsCall listsCall = .typeError := by
  simp [searchHandler, hq, settledListsValue, dataField]

/-- Witness for C10 at a concrete input: a non-empty query with both
upstream calls succeeding still throws. -/
theorem search_without_token_throws_witness :
    ("milk".isEmpty = false)
    ∧ searchHandler "milk" none (.ok []) (.ok []) = .typeError :=
  ⟨by decide, search_without_token_throws "milk" (.ok []) (.ok []) (by decide)⟩

end Gateway
